import Mathlib

/-!
Shallow embedding of the paper-reading agent (`main.py`) and proofs about the
claims of its specification.

The embedding models:
* a small filesystem state (`FS`) on which the converter and report writer act;
* `PDFConverter.convert_to_markdown` with its skip-on-exists check, the MinerU
  remote path (`_convert_with_mineru`, including the submit / upload / poll /
  download / unzip sequence) and the pymupdf4llm local fallback
  (`_convert_with_pymupdf`);
* `PaperAnalyzer.extract_images_from_markdown` including the image-reference
  regular expression `!\[.*?\]\((images/[^)]+)\)` as an explicit scanner;
* `PaperAnalyzer.analyze_paper` over the fixed `ANALYSIS_QUESTIONS` template,
  with the backend chat call abstracted as a function from the global question
  index to an `Except` (the message construction does not influence control
  flow);
* `PaperAnalyzer.save_analysis_report` and the report rendering;
* `PaperReadingAgent.batch_process_papers`.

External effects (HTTP calls, the zip archive, the local pdf extractor) enter
as explicit environment parameters recording what each call would return.
-/

namespace PaperAgent

/-- A filesystem state: an association list of files (later writes shadow
earlier ones; `read?` takes the first hit) plus a list of directories. -/
structure FS where
  files : List (String × String)
  dirs : List String
deriving DecidableEq, Repr

def FS.read? (fs : FS) (p : String) : Option String :=
  fs.files.lookup p

/-- `Path.exists()` for a file. -/
def FS.isFile (fs : FS) (p : String) : Bool :=
  (fs.read? p).isSome

/-- `open(p, "w")` followed by a complete write of `c`. -/
def FS.write (fs : FS) (p c : String) : FS :=
  ⟨(p, c) :: fs.files, fs.dirs⟩

/-- `mkdir(parents=True, exist_ok=True)` collapsed to recording the one
directory that the source asks for. -/
def FS.mkdirAt (fs : FS) (d : String) : FS :=
  ⟨fs.files, if fs.dirs.contains d then fs.dirs else d :: fs.dirs⟩

def FS.hasDir (fs : FS) (d : String) : Bool :=
  fs.dirs.contains d

/-! ### Path helpers (the fragments of `pathlib.Path` the source uses) -/

/-- Split a character list on a separator character (always at least one,
possibly empty, group). -/
def splitOnChar (sep : Char) : List Char → List (List Char)
  | [] => [[]]
  | c :: rest =>
    if c = sep then [] :: splitOnChar sep rest
    else
      match splitOnChar sep rest with
      | [] => [[c]]
      | g :: gs => (c :: g) :: gs

/-- Final path component. -/
def baseName (p : String) : String :=
  ⟨(splitOnChar '/' p.data).getLastD p.data⟩

/-- Directory part of a path (empty for a bare file name). -/
def parentDir (p : String) : String :=
  ⟨List.intercalate ['/'] ((splitOnChar '/' p.data).dropLast)⟩

def joinDir (d b : String) : String :=
  if d = "" then b else d ++ "/" ++ b

/-- `Path(p).stem` for ordinary file names (a non-empty name part before the
extension). -/
def stem (p : String) : String :=
  let parts := splitOnChar '.' (baseName p).data
  if parts.length ≤ 1 then baseName p else ⟨List.intercalate ['.'] parts.dropLast⟩

/-- `Path(p).with_suffix("." ++ ext)`. -/
def withSuffix (p ext : String) : String :=
  joinDir (parentDir p) (stem p ++ "." ++ ext)

/-! ### The MinerU remote conversion path (`PDFConverter._convert_with_mineru`)

Each HTTP interaction is represented by what it would return.  A
`requests` call that raises (network failure or `raise_for_status` on a bad
HTTP status) is an exception propagating out of `_convert_with_mineru`; the
error taxonomy below names the distinct `raise` sites of the source. -/

/-- What one poll of `GET .../extract-results/batch/{batch_id}` yields.
`payload st zu`: a JSON body whose `data.extract_result` list is empty
(`st = none`) or has first state `st = some s`, with `full_zip_url` `zu`.
`transport` means the `requests.get` or `res.raise_for_status()` raised. -/
inductive PollResp where
  | transport : PollResp
  | payload (state? : Option String) (full_zip_url : Option String) : PollResp
deriving DecidableEq, Repr

/-- Outcome of the polling `while retry < max_retry` loop, with the number of
polls performed and the total time slept (`time.sleep(3)` precedes each poll). -/
inductive MineruLoopOut where
  | foundDone (zip_url : Option String) (attempts slept : Nat)
  | transportErr (attempts slept : Nat)
  | timedOut (attempts slept : Nat)
deriving DecidableEq, Repr

/-- The polling loop of `_convert_with_mineru` (source lines 195-246 up to the
per-iteration exit decision): starting at poll index `i` with `slept` time
units consumed and `remaining` attempts left of the budget, sleep 3 units,
issue poll `i`, exit on a transport exception or on
`results and results[0].get("state") == "done"`, otherwise `retry += 1` and
loop; an exhausted budget is the `raise Exception("转换超时")` timeout. -/
def pollLoop (polls : Nat → PollResp) (i slept : Nat) : Nat → MineruLoopOut
  | 0 => .timedOut i slept
  | remaining + 1 =>
    match polls i with
    | .transport => .transportErr (i + 1) (slept + 3)
    | .payload st zu =>
      if st = some "done" then .foundDone zu (i + 1) (slept + 3)
      else pollLoop polls (i + 1) (slept + 3) remaining

/-- `max_retry = 180` (source line 197). -/
def max_retry : Nat := 180

/-- Result of `requests.post` to `/api/v4/file-urls/batch` plus the checks the
source performs on it: `transport` = the request (or a later field access on
its JSON) raised; `rejected` = `result.get("code") != 0`
(`raise Exception("申请上传失败...")`); `ok` carries `data.batch_id` and
`data.file_urls[0]`. -/
inductive SubmitResp where
  | transport : SubmitResp
  | rejected : SubmitResp
  | ok (batch_id upload_url : String) : SubmitResp
deriving DecidableEq, Repr

/-- Environment describing what the remote service and the archive contain. -/
structure MineruEnv where
  /-- response of the upload-URL request -/
  submit : SubmitResp
  /-- the `requests.put` upload succeeds (otherwise `raise_for_status` raises) -/
  uploadOk : Bool
  /-- response of the `i`-th status poll -/
  polls : Nat → PollResp
  /-- the `requests.get(zip_url)` download succeeds -/
  downloadOk : Bool
  /-- `zf.namelist()` of the downloaded archive -/
  zipEntries : List String
  /-- content of the archive's `full.md` entry (used when present) -/
  fullMd : String

/-- The distinct failure exits of `_convert_with_mineru`. -/
inductive MineruError where
  /-- an HTTP call raised (network error or `raise_for_status`) -/
  | transport
  /-- `申请上传失败`: submission answered with `code != 0` -/
  | submitRejected
  /-- `未获取到下载链接`: state `done` but no `full_zip_url` -/
  | noZipUrl
  /-- `转换超时`: the attempt budget was exhausted -/
  | timeout
deriving DecidableEq, Repr

structure MineruOk where
  fs : FS
  path : String
  attempts : Nat
  slept : Nat
deriving Repr

/-- `PDFConverter._convert_with_mineru` (source lines 154-246): submit, upload,
poll; on `done` download the archive to `output_path.with_suffix('.zip')`,
copy `full.md` to `output_path` when the archive has that entry, create the
`images` directory and extract the `images/` members, and return
`str(output_path)`.  Archive bytes and image bytes are abstracted as opaque
string contents. -/
def convert_with_mineru (env : MineruEnv) (fs : FS) (output_path : String) :
    Except MineruError MineruOk :=
  match env.submit with
  | .transport => .error .transport
  | .rejected => .error .submitRejected
  | .ok _batch_id _upload_url =>
    if !env.uploadOk then .error .transport
    else
      match pollLoop env.polls 0 0 max_retry with
      | .transportErr _ _ => .error .transport
      | .timedOut _ _ => .error .timeout
      | .foundDone none _ _ => .error .noZipUrl
      | .foundDone (some _zip_url) attempts slept =>
        if !env.downloadOk then .error .transport
        else
          let zip_path := withSuffix output_path "zip"
          let fs1 := fs.write zip_path "<zip-archive-bytes>"
          let fs2 :=
            if env.zipEntries.contains "full.md" then fs1.write output_path env.fullMd
            else fs1
          let images_dir := joinDir (parentDir output_path) "images"
          let fs3 := (env.zipEntries.filter (fun m => "images/".data.isPrefixOf m.data)).foldl
            (fun acc m => acc.write (joinDir (parentDir output_path) m) "<image-bytes>")
            (fs2.mkdirAt images_dir)
          .ok ⟨fs3, output_path, attempts, slept⟩

/-! ### The local fallback (`PDFConverter._convert_with_pymupdf`) and the
converter policy (`PDFConverter.convert_to_markdown`) -/

/-- Overall failure exits of `convert_to_markdown`. -/
inductive ConvError where
  /-- `FileNotFoundError("PDF文件不存在...")` -/
  | fileNotFound (p : String)
  /-- the local converter raised (`ImportError` or a pymupdf4llm failure) -/
  | localError (msg : String)
deriving DecidableEq, Repr

/-- `PDFConverter._convert_with_pymupdf` (source lines 248-263): run
`pymupdf4llm.to_markdown` — abstracted as the `pym` parameter, the text it
returns or the message of the exception it raises — and write the text to
`output_path` with a plain `open(output_path, 'w')` / `write`. -/
def convert_with_pymupdf (pym : Except String String) (fs : FS) (output_path : String) :
    Except ConvError (FS × String) :=
  match pym with
  | .error msg => .error (.localError msg)
  | .ok md_text => .ok (fs.write output_path md_text, output_path)

/-- `_convert_with_pymupdf` interrupted mid-write: `open(output_path, 'w')`
has already created (or truncated) the file and the first `k` characters of
`md_text` were flushed before the process stopped; the partial content stays
at `output_path` because the source writes directly, with no
write-then-rename step. -/
def convert_with_pymupdf_interrupted (md_text : String) (fs : FS) (output_path : String)
    (k : Nat) : FS :=
  fs.write output_path (md_text.take k)

/-- The output path `convert_to_markdown` chooses (source lines 129-133):
`Path(output_dir) / f"{pdf_path.stem}.md"` when an output directory was given,
else `pdf_path.with_suffix('.md')`. -/
def outputPathOf (pdf_path : String) (output_dir : Option String) : String :=
  match output_dir with
  | some d => joinDir d (stem pdf_path ++ ".md")
  | none => withSuffix pdf_path "md"

/-- The `output_path.parent.mkdir(parents=True, exist_ok=True)` that runs only
in the `output_dir` branch (source line 131). -/
def mkdirFor (output_dir : Option String) (fs : FS) : FS :=
  match output_dir with
  | some d => fs.mkdirAt d
  | none => fs

/-- Result of a successful `convert_to_markdown`, with ghost counters for how
often each conversion strategy ran (`remoteCalls` = `_convert_with_mineru`,
`localCalls` = `_convert_with_pymupdf`). -/
structure ConvResult where
  fs : FS
  path : String
  remoteCalls : Nat
  localCalls : Nat
deriving Repr

/-- `PDFConverter.convert_to_markdown` (source lines 113-152): check the pdf
exists, compute the output path (creating `output_dir` when given), skip when
the output already exists, otherwise try MinerU when `use_mineru` is set —
falling back to pymupdf4llm on ANY exception from that path — else call
pymupdf4llm directly. -/
def convert_to_markdown (use_mineru : Bool) (env : MineruEnv) (pym : Except String String)
    (fs : FS) (pdf_path : String) (output_dir : Option String) :
    Except ConvError ConvResult :=
  if !fs.isFile pdf_path then .error (.fileNotFound pdf_path)
  else
    let output_path := outputPathOf pdf_path output_dir
    let fs := mkdirFor output_dir fs
    if fs.isFile output_path then .ok ⟨fs, output_path, 0, 0⟩
    else if use_mineru then
      match convert_with_mineru env fs output_path with
      | .ok r => .ok ⟨r.fs, r.path, 1, 0⟩
      | .error _ =>
        match convert_with_pymupdf pym fs output_path with
        | .ok (fs', p) => .ok ⟨fs', p, 1, 1⟩
        | .error e => .error e
    else
      match convert_with_pymupdf pym fs output_path with
      | .ok (fs', p) => .ok ⟨fs', p, 0, 1⟩
      | .error e => .error e

/-- The constructor guard of `PDFConverter.__init__` (source lines 106-111):
requesting MinerU without a token falls back to the local converter. -/
def pdfConverterUseMineru (use_mineru : Bool) (mineru_token : Option String) : Bool :=
  if use_mineru && mineru_token.isNone then false else use_mineru

/-! ### `PaperAnalyzer.extract_images_from_markdown`

The source runs `re.findall(r'!\[.*?\]\((images/[^)]+)\)', content)`.  The
scanner below is that regular expression made explicit: `re.findall` tries a
match at each position left to right and continues after each match; `.*?`
lazily extends over non-newline characters to the next occurrence of the
literal `](images/`; the capture group is `images/` followed by one or more
non-`)` characters, taken greedily up to the closing `)` (on an inner failure
the lazy part extends to the next candidate occurrence). -/

/-- Split off everything before the first `)` together with the rest after it
(`[^)]+` runs exactly to the first `)`); `none` when there is no `)`. -/
def findClose : List Char → Option (List Char × List Char)
  | [] => none
  | c :: rest =>
    if c = ')' then some ([], rest)
    else (findClose rest).map fun pr => (c :: pr.1, pr.2)

/-- Try to complete a match of `.*?\]\((images/[^)]+)\)` on the text following
a `![`: advance over non-newline characters to an occurrence of `](images/`
whose capture `images/[^)]+` and closing `)` succeed; return the capture and
the rest of the text after the match. -/
def tryBody : List Char → Option (String × List Char)
  | [] => none
  | c :: rest =>
    let here : Option (String × List Char) :=
      if "](images/".data.isPrefixOf (c :: rest) then
        match findClose ((c :: rest).drop 9) with
        | some (run, after) =>
          if run.isEmpty then none else some (⟨"images/".data ++ run⟩, after)
        | none => none
      else none
    match here with
    | some r => some r
    | none => if c = '\n' then none else tryBody rest

/-- Left-to-right, non-overlapping scan of `re.findall`: at a `![` attempt the
rest of the pattern and continue after the match; on failure advance one
character.  `fuel` bounds the recursion; every step consumes at least one
character, so the text's length is enough fuel. -/
def scanImages : Nat → List Char → List String
  | 0, _ => []
  | _ + 1, [] => []
  | fuel + 1, c :: rest =>
    match c, rest with
    | '!', '[' :: body =>
      match tryBody body with
      | some (cap, after) => cap :: scanImages fuel after
      | none => scanImages fuel rest
    | _, _ => scanImages fuel rest

/-- `re.findall(r'!\[.*?\]\((images/[^)]+)\)', content)` (source line 278-279). -/
def findImageRefs (content : String) : List String :=
  scanImages content.data.length content.data

/-- `PaperAnalyzer.extract_images_from_markdown` (source lines 269-289): read
the file, collect the image references, resolve each against the file's
directory and keep those whose target exists, in scan order. -/
def extract_images_from_markdown (fs : FS) (markdown_path : String) :
    Except String (List String) :=
  match fs.read? markdown_path with
  | none => .error ("FileNotFoundError: " ++ markdown_path)
  | some content =>
    let image_refs := findImageRefs content
    let base_dir := parentDir markdown_path
    .ok (image_refs.foldl
      (fun image_paths ref =>
        let img_path := joinDir base_dir ref
        if fs.isFile img_path then image_paths ++ [img_path] else image_paths)
      [])

/-! ### `PaperAnalyzer.analyze_paper` -/

structure QAPair where
  question : String
  answer : String
deriving DecidableEq, Repr

structure CategoryResult where
  category : String
  qa_pairs : List QAPair
deriving DecidableEq, Repr

structure AnalysisResults where
  paper_path : String
  categories : List CategoryResult
deriving DecidableEq, Repr

/-- `PaperAnalyzer.ANALYSIS_QUESTIONS` (source lines 308-344): the fixed
category/question template, in source order. -/
def ANALYSIS_QUESTIONS : List (String × List String) :=
  [("基本信息",
    ["这篇论文发表在什么平台（期刊或会议）？该平台在该领域的权威性如何？",
     "这篇论文的主要创新点是什么？与现有工作相比有哪些突破？"]),
   ("论文结构与写作",
    ["这篇论文展现了研究工作的哪些方面（如问题定义、方法设计、实验验证、结果分析等）？",
     "作者是如何安排这些方面的先后顺序的？它们之间的逻辑关联是如何排布的？",
     "论文每个章节的主要内容是什么？章节之间如何过渡和衔接？",
     "论文的摘要和结论分别强调了哪些内容？它们如何呼应？"]),
   ("图表分析",
    ["论文包含哪些图片和表格？每个图表分别介绍了论文工作的哪些方面？",
     "这些图表在论文中的位置如何安排？它们如何与文字内容相关联？",
     "哪些图表最能体现论文的核心贡献和创新点？",
     "图表的设计（如配色、布局、标注）有什么特点？它们如何帮助读者理解内容？"]),
   ("写作建议",
    ["如果我要发表类似的工作，应该如何组织论文结构？",
     "我应该在论文中重点呈现哪些工作内容？哪些内容需要详细描述，哪些可以简略？",
     "我应该把哪些工作通过图片或表格呈现出来？如何设计这些图表？",
     "论文的语言表达有什么特点？如何保持学术性的同时提高可读性？",
     "这篇论文在写作上有哪些值得学习的地方？又有哪些可以改进的地方？"])]

/-- Number of questions in a category list. -/
def totalQuestions (cs : List (String × List String)) : Nat :=
  (cs.map (·.2.length)).sum

/-- The inner `for i, question in enumerate(questions, 1)` loop of
`analyze_paper` (source lines 387-457): for each question build the messages
and run `answer = self.llm.chat(messages)` — abstracted as `chat k` for the
`k`-th question of the whole run, returning the answer or the message of the
exception the backend raised, which the source does not catch — and append
`{"question": ..., "answer": ...}`.  Returns the `qa_pairs` list and the next
global question index. -/
def runQuestions (chat : Nat → Except String String) (k : Nat) :
    List String → Except String (List QAPair × Nat)
  | [] => .ok ([], k)
  | q :: qs =>
    match chat k with
    | .error e => .error e
    | .ok a =>
      match runQuestions chat (k + 1) qs with
      | .error e => .error e
      | .ok (rest, k') => .ok (⟨q, a⟩ :: rest, k')

/-- The outer `for category_info in self.ANALYSIS_QUESTIONS` loop of
`analyze_paper` (source lines 377-459): one `category_result` per category,
appended in order. -/
def runCategories (chat : Nat → Except String String) (k : Nat) :
    List (String × List String) → Except String (List CategoryResult × Nat)
  | [] => .ok ([], k)
  | (c, qs) :: cs =>
    match runQuestions chat k qs with
    | .error e => .error e
    | .ok (pairs, k') =>
      match runCategories chat k' cs with
      | .error e => .error e
      | .ok (rest, k'') => .ok (⟨c, pairs⟩ :: rest, k'')

/-- `PaperAnalyzer.analyze_paper` (source lines 350-462): read the paper text
(raising if the file is missing), then iterate the template; the result
records the paper path and the per-category results. -/
def analyze_paper (fs : FS) (chat : Nat → Except String String) (markdown_path : String) :
    Except String AnalysisResults :=
  match fs.read? markdown_path with
  | none => .error ("FileNotFoundError: " ++ markdown_path)
  | some _paper_content =>
    match runCategories chat 0 ANALYSIS_QUESTIONS with
    | .error e => .error e
    | .ok (cats, _) => .ok ⟨markdown_path, cats⟩

/-! ### `PaperAnalyzer.save_analysis_report` -/

/-- One question/answer block of the report (source lines 490-496). -/
def renderQA (qa : QAPair) : String :=
  "### " ++ qa.question ++ "\n\n" ++ qa.answer ++ "\n\n" ++ "---\n\n"

/-- One category section of the report (source lines 486-496). -/
def renderCategory (c : CategoryResult) : String :=
  "## " ++ c.category ++ "\n\n" ++ String.join (c.qa_pairs.map renderQA)

/-- The full report text written by `save_analysis_report`
(source lines 480-496), with the timestamp injected. -/
def renderReport (r : AnalysisResults) (now : String) : String :=
  "# 论文分析报告\n\n" ++
  "**分析论文**: " ++ r.paper_path ++ "\n\n" ++
  "**生成时间**: " ++ now ++ "\n\n" ++
  "---\n\n" ++
  String.join (r.categories.map renderCategory)

/-- `PaperAnalyzer.save_analysis_report` (source lines 464-499):
`self.analysis_results` is the empty dict (`none` here) until `analyze_paper`
stores a result; an empty value raises `ValueError` before touching the
filesystem, otherwise the parent directory is created and the report written.
Returns the filesystem after the call and the outcome. -/
def save_analysis_report (analysis_results : Option AnalysisResults) (fs : FS)
    (output_path : String) (now : String) : FS × Except String String :=
  match analysis_results with
  | none => (fs, .error "没有可保存的分析结果，请先运行analyze_paper()")
  | some r =>
    let fs := fs.mkdirAt (parentDir output_path)
    (fs.write output_path (renderReport r now), .ok output_path)

/-! ### `PaperReadingAgent.batch_process_papers` -/

/-- Running tallies of the batch loop (source lines 622-624): the report paths
of the successes, the `successful` and `failed` counters, and the failure
messages printed by the `except` arm (source line 640). -/
structure BatchOut where
  results : List String
  successful : Nat
  failed : Nat
  errLog : List String
deriving DecidableEq, Repr

/-- One iteration of the `for i, pdf_file in enumerate(pdf_files, 1)` loop
(source lines 626-642): `try: process_paper(...)` — abstracted as
`process f`, the report path it returns or the message of the exception it
raises — appending on success and counting plus logging on failure. -/
def batchStep (process : String → Except String String) (acc : BatchOut) (f : String) :
    BatchOut :=
  match process f with
  | .ok report_path =>
    ⟨acc.results ++ [report_path], acc.successful + 1, acc.failed, acc.errLog⟩
  | .error e =>
    ⟨acc.results, acc.successful, acc.failed + 1, acc.errLog ++ [e]⟩

/-- `PaperReadingAgent.batch_process_papers` (source lines 588-653): with the
directory handling and the glob abstracted into the `pdf_files` list, return
early with `[]` when no pdf was found, else run the loop and return the
accumulated outcome. -/
def batch_process_papers (process : String → Except String String)
    (pdf_files : List String) : BatchOut :=
  if pdf_files.isEmpty then ⟨[], 0, 0, []⟩
  else pdf_files.foldl (batchStep process) ⟨[], 0, 0, []⟩

/-- Whether an `Except` is a success. -/
def isOkE {ε α : Type} (e : Except ε α) : Bool :=
  match e with
  | .ok _ => true
  | .error _ => false

/-! ### Concrete instances used by witnesses and counterexamples -/

/-- A filesystem holding just the source pdf. -/
def fs0 : FS := ⟨[("papers/p.pdf", "<pdf-bytes>")], []⟩

/-- A remote service that reports `done` at once but whose archive has no
`full.md` entry. -/
def envNoFullMd : MineruEnv :=
  ⟨.ok "b1" "u1", true, fun _ => .payload (some "done") (some "http://z"), true,
    ["images/fig1.png"], "# remote markdown"⟩

/-- A remote service whose job never leaves the `running` state. -/
def envNeverDone : MineruEnv :=
  ⟨.ok "b2" "u2", true, fun _ => .payload (some "running") none, true, [], ""⟩

/-- A remote service whose first status poll raises a transport error and
which would report `done` from the second poll on. -/
def envTransportPoll : MineruEnv :=
  ⟨.ok "b3" "u3", true,
    fun i => if i = 0 then .transport else .payload (some "done") (some "u"),
    true, ["full.md"], "# remote markdown"⟩

/-- A remote service whose submission request raises at once. -/
def envSubmitFails : MineruEnv :=
  ⟨.transport, true, fun _ => .payload none none, true, [], ""⟩

/-- A filesystem holding one converted paper. -/
def fsPaper : FS := ⟨[("out/p.md", "paper text")], []⟩

/-- A chat backend that raises on the first question and would succeed on
every later one. -/
def chatFailFirst : Nat → Except String String :=
  fun k => if k = 0 then .error "TransportError" else .ok "fine"

/-- A chat backend that answers every question. -/
def chatOk : Nat → Except String String :=
  fun k => .ok ("ans" ++ toString k)

/-- The analysis produced by `chatOk` on the example paper. -/
def exAnalysis : AnalysisResults :=
  (analyze_paper fsPaper chatOk "out/p.md").toOption.getD ⟨"", []⟩

/-- A per-document processor whose second document fails. -/
def proc3 : String → Except String String :=
  fun f => if f = "papers/b.pdf" then .error "conversion failed" else .ok (f ++ "_analysis.md")

def files3 : List String := ["papers/a.pdf", "papers/b.pdf", "papers/c.pdf"]

/-- Normalized text referencing one existing and one missing image. -/
def exText : String := "![fig a](images/a.png) and ![fig m](images/missing.png)"

/-- Filesystem for the attachment example: only `a.png` exists. -/
def exFs : FS := ⟨[("out/doc.md", exText), ("out/images/a.png", "<png-bytes>")], []⟩

/-- The filesystem left behind when the local converter is interrupted four
characters into its write. -/
def fsPartial : FS :=
  convert_with_pymupdf_interrupted "# Paper full text" fs0 "out/p.md" 4

/-- The result of a first, locally converted, run on the example pdf. -/
def convResult1 : ConvResult :=
  (convert_to_markdown false envNeverDone (.ok "# text") fs0 "papers/p.pdf"
    (some "out")).toOption.getD ⟨fs0, "", 0, 0⟩

/-! ### Filesystem lemmas -/

theorem FS.read?_write_self (fs : FS) (p c : String) :
    (fs.write p c).read? p = some c := by
  simp [FS.write, FS.read?, List.lookup]

theorem FS.isFile_write_self (fs : FS) (p c : String) :
    (fs.write p c).isFile p = true := by
  simp [FS.isFile, FS.read?_write_self]

theorem FS.isFile_write_of (fs : FS) (p c q : String) (h : fs.isFile q = true) :
    (fs.write p c).isFile q = true := by
  simp only [FS.isFile, FS.write, FS.read?, List.lookup] at *
  cases hqp : q == p <;> simp [hqp, h]

theorem FS.isFile_mkdirAt (fs : FS) (d q : String) :
    (fs.mkdirAt d).isFile q = fs.isFile q := rfl

theorem FS.hasDir_write (fs : FS) (p c d : String) :
    (fs.write p c).hasDir d = fs.hasDir d := rfl

theorem FS.hasDir_mkdirAt_self (fs : FS) (d : String) :
    (fs.mkdirAt d).hasDir d = true := by
  simp only [FS.mkdirAt, FS.hasDir]
  cases h : fs.dirs.contains d
  · simp [h]
  · simp [h]
    simpa using h

theorem FS.isFile_foldl_write {α : Type} (l : List α) (f : α → String) (c : String)
    (fs : FS) (q : String) (h : fs.isFile q = true) :
    (l.foldl (fun acc m => acc.write (f m) c) fs).isFile q = true := by
  induction l generalizing fs with
  | nil => simpa using h
  | cons m ms ih => exact ih (fs.write (f m) c) (FS.isFile_write_of fs (f m) c q h)

theorem isFile_mkdirFor (od : Option String) (fs : FS) (q : String) :
    (mkdirFor od fs).isFile q = fs.isFile q := by
  cases od <;> rfl

/-! ### Structural lemmas about the converter -/

/-- A successful remote conversion returns `str(output_path)` and never
removes a file. -/
theorem convert_with_mineru_ok (env : MineruEnv) (fs : FS) (out : String) (r : MineruOk)
    (h : convert_with_mineru env fs out = .ok r) :
    r.path = out ∧ ∀ q, fs.isFile q = true → r.fs.isFile q = true := by
  simp only [convert_with_mineru] at h
  split at h
  · exact absurd h (by simp)
  · exact absurd h (by simp)
  split at h
  · exact absurd h (by simp)
  split at h
  · exact absurd h (by simp)
  · exact absurd h (by simp)
  · exact absurd h (by simp)
  · split at h
    · exact absurd h (by simp)
    simp only [Except.ok.injEq] at h
    subst h
    refine ⟨rfl, fun q hq => ?_⟩
    apply FS.isFile_foldl_write
    rw [FS.isFile_mkdirAt]
    split
    · exact FS.isFile_write_of _ _ _ _ (FS.isFile_write_of _ _ _ _ hq)
    · exact FS.isFile_write_of _ _ _ _ hq

/-- A successful local conversion returns `str(output_path)` and never
removes a file. -/
theorem convert_with_pymupdf_ok (pym : Except String String) (fs : FS) (out : String)
    (fs' : FS) (p : String) (h : convert_with_pymupdf pym fs out = .ok (fs', p)) :
    p = out ∧ ∀ q, fs.isFile q = true → fs'.isFile q = true := by
  unfold convert_with_pymupdf at h
  cases pym with
  | error m => exact absurd h (by simp)
  | ok t =>
    simp only [Except.ok.injEq, Prod.mk.injEq] at h
    obtain ⟨hfs, hp⟩ := h
    subst hfs; subst hp
    exact ⟨rfl, fun q hq => FS.isFile_write_of _ _ _ _ hq⟩

/-- A successful `convert_to_markdown` returns the deterministic output path
of the source/output-directory pair and never removes a file. -/
theorem convert_to_markdown_ok (um : Bool) (env : MineruEnv) (pym : Except String String)
    (fs : FS) (pdf : String) (od : Option String) (r : ConvResult)
    (h : convert_to_markdown um env pym fs pdf od = .ok r) :
    r.path = outputPathOf pdf od ∧ ∀ q, fs.isFile q = true → r.fs.isFile q = true := by
  simp only [convert_to_markdown] at h
  split at h
  · exact absurd h (by simp)
  split at h
  · -- skip-on-exists branch
    simp only [Except.ok.injEq] at h
    subst h
    exact ⟨rfl, fun q hq => by rw [isFile_mkdirFor]; exact hq⟩
  split at h
  · -- MinerU branch
    cases hm : convert_with_mineru env (mkdirFor od fs) (outputPathOf pdf od) <;> rw [hm] at h
    case error em =>
      cases hl : convert_with_pymupdf pym (mkdirFor od fs) (outputPathOf pdf od) <;> rw [hl] at h
      case error e => exact absurd h (by simp)
      case ok pr =>
        obtain ⟨fs', p⟩ := pr
        simp only [Except.ok.injEq] at h
        subst h
        obtain ⟨hpath, hpres⟩ := convert_with_pymupdf_ok _ _ _ _ _ hl
        exact ⟨hpath, fun q hq => hpres q (by rw [isFile_mkdirFor]; exact hq)⟩
    case ok rm =>
      simp only [Except.ok.injEq] at h
      subst h
      obtain ⟨hpath, hpres⟩ := convert_with_mineru_ok _ _ _ _ hm
      exact ⟨hpath, fun q hq => hpres q (by rw [isFile_mkdirFor]; exact hq)⟩
  · -- direct local branch
    cases hl : convert_with_pymupdf pym (mkdirFor od fs) (outputPathOf pdf od) <;> rw [hl] at h
    case error e => exact absurd h (by simp)
    case ok pr =>
      obtain ⟨fs', p⟩ := pr
      simp only [Except.ok.injEq] at h
      subst h
      obtain ⟨hpath, hpres⟩ := convert_with_pymupdf_ok _ _ _ _ _ hl
      exact ⟨hpath, fun q hq => hpres q (by rw [isFile_mkdirFor]; exact hq)⟩

/-- If every poll in the budget answers with a status other than `done`, the
loop runs through the whole budget and times out, having slept 3 units per
attempt. -/
theorem pollLoop_timeout (polls : Nat → PollResp) :
    ∀ (n i s : Nat),
      (∀ j, j < n → ∃ st zu, polls (i + j) = .payload st zu ∧ st ≠ some "done") →
      pollLoop polls i s n = .timedOut (i + n) (s + 3 * n) := by
  intro n
  induction n with
  | zero => intro i s _; simp [pollLoop]
  | succ n ih =>
    intro i s hnd
    obtain ⟨st, zu, hpoll, hst⟩ := hnd 0 (Nat.succ_pos n)
    rw [Nat.add_zero] at hpoll
    have hrec := ih (i + 1) (s + 3) (fun j hj => by
      obtain ⟨st', zu', h1, h2⟩ := hnd (j + 1) (by omega)
      exact ⟨st', zu', by rw [show i + 1 + j = i + (j + 1) by omega]; exact h1, h2⟩)
    simp only [pollLoop, hpoll, if_neg hst, hrec]
    congr 1 <;> omega

/-- When the source pdf exists and the expected output path already exists,
`convert_to_markdown` returns that path at once, invoking neither strategy. -/
theorem convert_skips_existing (um : Bool) (env : MineruEnv) (pym : Except String String)
    (fs : FS) (pdf : String) (od : Option String)
    (hpdf : fs.isFile pdf = true)
    (hout : (mkdirFor od fs).isFile (outputPathOf pdf od) = true) :
    convert_to_markdown um env pym fs pdf od = .ok ⟨mkdirFor od fs, outputPathOf pdf od, 0, 0⟩ := by
  simp only [convert_to_markdown, hpdf, hout]
  simp

/-! ### Structural lemmas about the analysis loop -/

/-- A successful question loop pairs the questions, in order, with answers:
the produced `qa_pairs` carry exactly the input questions, and the global
index advances by their number. -/
theorem runQuestions_ok_questions (chat : Nat → Except String String) :
    ∀ (qs : List String) (k k' : Nat) (ps : List QAPair),
      runQuestions chat k qs = .ok (ps, k') →
      ps.map QAPair.question = qs ∧ k' = k + qs.length := by
  intro qs
  induction qs with
  | nil =>
    intro k k' ps h
    simp only [runQuestions, Except.ok.injEq, Prod.mk.injEq] at h
    obtain ⟨h1, h2⟩ := h
    subst h1; subst h2
    simp
  | cons q qs ih =>
    intro k k' ps h
    simp only [runQuestions] at h
    split at h
    · exact absurd h (by simp)
    split at h
    · exact absurd h (by simp)
    case _ a _ rest k2 hr =>
      simp only [Except.ok.injEq, Prod.mk.injEq] at h
      obtain ⟨h1, h2⟩ := h
      subst h1; subst h2
      obtain ⟨hmap, hk⟩ := ih (k + 1) k2 rest hr
      refine ⟨by simp [hmap], ?_⟩
      simp only [List.length_cons]
      omega

/-- A successful category loop returns one `CategoryResult` per category, in
order, whose name and question list match the template. -/
theorem runCategories_ok_shape (chat : Nat → Except String String) :
    ∀ (cs : List (String × List String)) (k k' : Nat) (rs : List CategoryResult),
      runCategories chat k cs = .ok (rs, k') →
      rs.map (fun c => (c.category, c.qa_pairs.map QAPair.question)) = cs := by
  intro cs
  induction cs with
  | nil =>
    intro k k' rs h
    simp only [runCategories, Except.ok.injEq, Prod.mk.injEq] at h
    obtain ⟨h1, _⟩ := h
    subst h1
    simp
  | cons cq cs ih =>
    intro k k' rs h
    obtain ⟨c, qs⟩ := cq
    simp only [runCategories] at h
    split at h
    · exact absurd h (by simp)
    case _ pairs k1 hq =>
      split at h
      · exact absurd h (by simp)
      case _ rest k2 hr =>
        simp only [Except.ok.injEq, Prod.mk.injEq] at h
        obtain ⟨h1, _⟩ := h
        subst h1
        obtain ⟨hmap, _⟩ := runQuestions_ok_questions chat qs k k1 pairs hq
        simp [hmap, ih k1 k2 rest hr]

/-- If every question of a block has a successful chat call, the question
loop succeeds and advances the index past the block. -/
theorem runQuestions_ok_of (chat : Nat → Except String String) :
    ∀ (qs : List String) (k : Nat),
      (∀ j, j < qs.length → isOkE (chat (k + j)) = true) →
      ∃ ps, runQuestions chat k qs = .ok (ps, k + qs.length) := by
  intro qs
  induction qs with
  | nil => intro k _; exact ⟨[], by simp [runQuestions]⟩
  | cons q qs ih =>
    intro k hok
    have h0 := hok 0 (by simp)
    cases hc : chat k
    case error e => rw [Nat.add_zero, hc] at h0; simp [isOkE] at h0
    case ok a =>
      obtain ⟨ps, hps⟩ := ih (k + 1) (fun j hj => by
        have := hok (j + 1) (by simpa using Nat.succ_lt_succ hj)
        rwa [show k + (j + 1) = k + 1 + j by omega] at this)
      refine ⟨⟨q, a⟩ :: ps, ?_⟩
      simp only [runQuestions, hc, hps]
      have : k + 1 + qs.length = k + (qs.length + 1) := by omega
      rw [this]
      simp

/-- The first failing chat call makes the question loop fail with that
error. -/
theorem runQuestions_error (chat : Nat → Except String String) (e : String) :
    ∀ (qs : List String) (k off : Nat),
      off < qs.length →
      (∀ j, j < off → isOkE (chat (k + j)) = true) →
      chat (k + off) = .error e →
      runQuestions chat k qs = .error e := by
  intro qs
  induction qs with
  | nil => intro k off hoff _ _; simp at hoff
  | cons q qs ih =>
    intro k off hoff hok herr
    cases off with
    | zero =>
      rw [Nat.add_zero] at herr
      simp [runQuestions, herr]
    | succ off' =>
      have h0 := hok 0 (Nat.succ_pos off')
      cases hc : chat k
      case error e' => rw [Nat.add_zero, hc] at h0; simp [isOkE] at h0
      case ok a =>
        have hrec := ih (k + 1) off' (by simpa using Nat.lt_of_succ_lt_succ hoff)
          (fun j hj => by
            have := hok (j + 1) (Nat.succ_lt_succ hj)
            rwa [show k + (j + 1) = k + 1 + j by omega] at this)
          (by rwa [show k + 1 + off' = k + (off' + 1) by omega])
        simp [runQuestions, hc, hrec]

/-- The first failing chat call makes the whole category loop fail with that
error. -/
theorem runCategories_error (chat : Nat → Except String String) (e : String) :
    ∀ (cs : List (String × List String)) (k off : Nat),
      off < totalQuestions cs →
      (∀ j, j < off → isOkE (chat (k + j)) = true) →
      chat (k + off) = .error e →
      runCategories chat k cs = .error e := by
  intro cs
  induction cs with
  | nil =>
    intro k off hoff
    simp [totalQuestions] at hoff
  | cons cq cs ih =>
    intro k off hoff hok herr
    obtain ⟨c, qs⟩ := cq
    by_cases hlt : off < qs.length
    · have h := runQuestions_error chat e qs k off hlt hok herr
      simp [runCategories, h]
    · push_neg at hlt
      obtain ⟨ps, hps⟩ := runQuestions_ok_of chat qs k
        (fun j hj => hok j (by omega))
      have hrec := ih (k + qs.length) (off - qs.length)
        (by
          simp only [totalQuestions, List.map_cons, List.sum_cons] at hoff
          simp only [totalQuestions]
          omega)
        (fun j hj => by
          have := hok (qs.length + j) (by omega)
          rwa [show k + (qs.length + j) = k + qs.length + j by omega] at this)
        (by rwa [show k + qs.length + (off - qs.length) = k + off by omega])
      simp [runCategories, hps, hrec]

/-! ### Claim theorems -/

/-- C1: whenever the remote MinerU path is enabled and raises any of its
errors, `convert_to_markdown` does not propagate that error: it runs the
local converter and returns its output path, and the whole call fails only
when the local fallback itself fails. -/
theorem C1_remote_error_falls_back_to_local (env : MineruEnv) (pym : Except String String)
    (fs : FS) (pdf_path : String) (od : Option String) (err : MineruError)
    (hpdf : fs.isFile pdf_path = true)
    (hout : (mkdirFor od fs).isFile (outputPathOf pdf_path od) = false)
    (herr : convert_with_mineru env (mkdirFor od fs) (outputPathOf pdf_path od) = .error err) :
    (∀ t, pym = .ok t →
      convert_to_markdown true env pym fs pdf_path od =
        .ok ⟨(mkdirFor od fs).write (outputPathOf pdf_path od) t,
             outputPathOf pdf_path od, 1, 1⟩) ∧
    (∀ m, pym = .error m →
      convert_to_markdown true env pym fs pdf_path od = .error (.localError m)) := by
  constructor
  · intro t ht
    subst ht
    simp only [convert_to_markdown, hpdf, hout, herr, convert_with_pymupdf]
    simp
  · intro m hm
    subst hm
    simp only [convert_to_markdown, hpdf, hout, herr, convert_with_pymupdf]
    simp

theorem C1_witness :
    convert_to_markdown true envSubmitFails (.ok "# local markdown") fs0 "papers/p.pdf"
        (some "out") =
      .ok ⟨(mkdirFor (some "out") fs0).write (outputPathOf "papers/p.pdf" (some "out"))
             "# local markdown",
           outputPathOf "papers/p.pdf" (some "out"), 1, 1⟩ :=
  (C1_remote_error_falls_back_to_local envSubmitFails (.ok "# local markdown") fs0
    "papers/p.pdf" (some "out") .transport (by decide) (by decide) rfl).1
    "# local markdown" rfl

/-- C4: a job whose polled status never reaches `done` makes the loop run
through exactly the configured budget of `max_retry = 180` attempts, each
preceded by a 3-time-unit sleep (540 units in total), and then fail with the
timeout error, a constructor distinct from every other failure (in
particular from a remote transport failure). -/
theorem C4_polling_times_out_after_exact_budget (env : MineruEnv) (fs : FS) (out b u : String)
    (hsub : env.submit = .ok b u) (hup : env.uploadOk = true)
    (hnd : ∀ j, j < max_retry → ∃ st zu, env.polls j = .payload st zu ∧ st ≠ some "done") :
    pollLoop env.polls 0 0 max_retry = .timedOut max_retry (3 * max_retry) ∧
    max_retry = 180 ∧ 3 * max_retry = 540 ∧
    convert_with_mineru env fs out = .error .timeout ∧
    (MineruError.timeout ≠ .transport ∧ MineruError.timeout ≠ .submitRejected ∧
      MineruError.timeout ≠ .noZipUrl) := by
  have hloop : pollLoop env.polls 0 0 max_retry = .timedOut (0 + max_retry) (0 + 3 * max_retry) :=
    pollLoop_timeout env.polls max_retry 0 0 (by simpa using hnd)
  rw [Nat.zero_add, Nat.zero_add] at hloop
  refine ⟨hloop, rfl, rfl, ?_, by decide, by decide, by decide⟩
  simp only [convert_with_mineru, hsub, hup, hloop]
  simp

theorem C4_witness :
    pollLoop envNeverDone.polls 0 0 max_retry = .timedOut max_retry (3 * max_retry) ∧
    convert_with_mineru envNeverDone fs0 "out/p.md" = .error .timeout :=
  have h := C4_polling_times_out_after_exact_budget envNeverDone fs0 "out/p.md" "b2" "u2"
    rfl rfl (fun j _ => ⟨some "running", none, rfl, by decide⟩)
  ⟨h.1, h.2.2.2.1⟩

/-- C5 as stated is false: a transport error during one poll is not absorbed
by the polling loop.  With a transport error on the first poll and a service
that would report `done` from the second poll on, the loop terminates
immediately after 1 attempt with the propagating transport error instead of
proceeding to the next attempt, and the remote conversion reports a
transport failure. -/
theorem C5_counterexample :
    pollLoop envTransportPoll.polls 0 0 max_retry = .transportErr 1 3 ∧
    convert_with_mineru envTransportPoll fs0 "out/p.md" = .error .transport ∧
    envTransportPoll.polls 1 = .payload (some "done") (some "u") ∧
    pollLoop envTransportPoll.polls 0 0 max_retry ≠ .foundDone (some "u") 2 6 :=
  ⟨rfl, rfl, rfl, by decide⟩

/-- C5 amended: a poll attempt that fails with a transport error immediately
aborts the polling loop — the exception propagates out of
`_convert_with_mineru` as a transport failure (it does not merely consume an
attempt while polling proceeds); the fallback policy of C1 then applies at
the converter layer. -/
theorem C5_transport_error_aborts_polling (env : MineruEnv) (fs : FS) (out b u : String)
    (h0 : env.polls 0 = .transport) (hsub : env.submit = .ok b u) (hup : env.uploadOk = true) :
    pollLoop env.polls 0 0 max_retry = .transportErr 1 3 ∧
    convert_with_mineru env fs out = .error .transport := by
  have hloop : pollLoop env.polls 0 0 max_retry = .transportErr 1 3 := by
    rw [show max_retry = 179 + 1 from rfl]
    simp [pollLoop, h0]
  refine ⟨hloop, ?_⟩
  simp only [convert_with_mineru, hsub, hup, hloop]
  simp

theorem C5_witness :
    pollLoop envTransportPoll.polls 0 0 max_retry = .transportErr 1 3 ∧
    convert_with_mineru envTransportPoll fs0 "out/p.md" = .error .transport :=
  C5_transport_error_aborts_polling envTransportPoll fs0 "out/p.md" "b3" "u3" rfl rfl rfl

/-- C9 as stated is false: the local converter writes its output with a plain
`open`/`write`, not atomically.  Interrupting the write of
`"# Paper full text"` after 4 characters leaves a partial file `"# Pa"` at
the output path, and a subsequent `convert_to_markdown` takes the
skip-on-exists branch, accepting the partial file as a completed artifact
without invoking any conversion strategy. -/
theorem C9_counterexample :
    fsPartial.isFile "out/p.md" = true ∧
    fsPartial.read? "out/p.md" = some "# Pa" ∧
    ("# Pa" : String) ≠ "# Paper full text" ∧
    convert_to_markdown false envNeverDone (.ok "# Paper full text") fsPartial "papers/p.pdf"
        (some "out") = .ok ⟨fsPartial.mkdirAt "out", "out/p.md", 0, 0⟩ :=
  ⟨rfl, rfl, by decide, by rfl⟩

/-- C9 amended: the local converter writes directly to the output path
(no write-then-rename); a write interrupted after `k` characters leaves the
truncated prefix as an existing file at the output path, which the
skip-on-exists idempotency check of `convert_to_markdown` then mistakes for
a completed artifact, returning it without invoking any conversion
strategy. -/
theorem C9_interrupted_write_leaves_accepted_partial (um : Bool) (env : MineruEnv)
    (pym : Except String String) (md_text : String) (fs : FS) (pdf d : String) (k : Nat)
    (hpdf : fs.isFile pdf = true) :
    (convert_with_pymupdf_interrupted md_text fs (outputPathOf pdf (some d)) k).isFile
        (outputPathOf pdf (some d)) = true ∧
    (convert_with_pymupdf_interrupted md_text fs (outputPathOf pdf (some d)) k).read?
        (outputPathOf pdf (some d)) = some (md_text.take k) ∧
    convert_to_markdown um env pym
        (convert_with_pymupdf_interrupted md_text fs (outputPathOf pdf (some d)) k) pdf (some d) =
      .ok ⟨(convert_with_pymupdf_interrupted md_text fs (outputPathOf pdf (some d)) k).mkdirAt d,
           outputPathOf pdf (some d), 0, 0⟩ := by
  refine ⟨FS.isFile_write_self _ _ _, FS.read?_write_self _ _ _, ?_⟩
  apply convert_skips_existing
  · exact FS.isFile_write_of _ _ _ _ hpdf
  · rw [isFile_mkdirFor]
    exact FS.isFile_write_self _ _ _

theorem C9_witness :
    (convert_with_pymupdf_interrupted "# Paper full text" fs0
        (outputPathOf "papers/p.pdf" (some "out")) 4).isFile
        (outputPathOf "papers/p.pdf" (some "out")) = true ∧
    (convert_with_pymupdf_interrupted "# Paper full text" fs0
        (outputPathOf "papers/p.pdf" (some "out")) 4).read?
        (outputPathOf "papers/p.pdf" (some "out")) = some (("# Paper full text" : String).take 4) ∧
    convert_to_markdown false envNeverDone (.ok "# Paper full text")
        (convert_with_pymupdf_interrupted "# Paper full text" fs0
          (outputPathOf "papers/p.pdf" (some "out")) 4) "papers/p.pdf" (some "out") =
      .ok ⟨(convert_with_pymupdf_interrupted "# Paper full text" fs0
              (outputPathOf "papers/p.pdf" (some "out")) 4).mkdirAt "out",
           outputPathOf "papers/p.pdf" (some "out"), 0, 0⟩ :=
  C9_interrupted_write_leaves_accepted_partial false envNeverDone (.ok "# Paper full text")
    "# Paper full text" fs0 "papers/p.pdf" "out" 4 (by decide)

/-- C3 as stated is false: the per-question ChatClient call of
`analyze_paper` is not wrapped in any error handling.  With a backend that
fails on the first question but would succeed on every later one, the whole
analysis returns that error — no placeholder is recorded, the remaining
questions are never asked, and no AnalysisResult (sparse or otherwise) is
produced. -/
theorem C3_counterexample :
    analyze_paper fsPaper chatFailFirst "out/p.md" = .error "TransportError" ∧
    chatFailFirst 1 = .ok "fine" :=
  ⟨rfl, rfl⟩

/-- C3 amended: an error raised by the ChatClient on any question (all
earlier questions having succeeded) is not caught by the analysis loop:
`analyze_paper` propagates the error and produces no AnalysisResult for the
document; failures are absorbed only at the batch level (C7). -/
theorem C3_chat_error_aborts_analysis (fs : FS) (chat : Nat → Except String String)
    (p content e : String) (off : Nat)
    (hread : fs.read? p = some content)
    (hoff : off < totalQuestions ANALYSIS_QUESTIONS)
    (hok : ∀ j, j < off → isOkE (chat j) = true)
    (herr : chat off = .error e) :
    analyze_paper fs chat p = .error e := by
  have h := runCategories_error chat e ANALYSIS_QUESTIONS 0 off hoff
    (fun j hj => by simpa using hok j hj) (by simpa using herr)
  simp only [analyze_paper, hread, h]

theorem C3_witness :
    analyze_paper fsPaper (fun k => if k = 0 then .ok "a" else .error "boom") "out/p.md" =
      .error "boom" :=
  C3_chat_error_aborts_analysis fsPaper (fun k => if k = 0 then .ok "a" else .error "boom")
    "out/p.md" "paper text" "boom" 1 rfl (by decide)
    (fun j hj => by
      have hj0 : j = 0 := by omega
      subst hj0
      rfl)
    rfl

/-- C6: every AnalysisResult produced by a successful `analyze_paper` lists
its categories in exactly the `ANALYSIS_QUESTIONS` order, and inside each
category the `j`-th QA pair's question is exactly the template's `j`-th
question of that category. -/
theorem C6_analysis_matches_template_order (fs : FS) (chat : Nat → Except String String)
    (p : String) (r : AnalysisResults)
    (h : analyze_paper fs chat p = .ok r) :
    r.categories.map (fun c => (c.category, c.qa_pairs.map QAPair.question)) =
      ANALYSIS_QUESTIONS ∧
    ∀ (i j : Nat),
      ((r.categories[i]?.bind fun (c : CategoryResult) => c.qa_pairs[j]?).map QAPair.question) =
        ((ANALYSIS_QUESTIONS[i]?.map Prod.snd).bind fun (qs : List String) => qs[j]?) := by
  unfold analyze_paper at h
  cases hread : fs.read? p <;> rw [hread] at h
  · exact absurd h (by simp)
  case some content =>
    cases hrc : runCategories chat 0 ANALYSIS_QUESTIONS <;> rw [hrc] at h
    · exact absurd h (by simp)
    case ok pr =>
      obtain ⟨cats, kfin⟩ := pr
      simp only [Except.ok.injEq] at h
      subst h
      have hmap := runCategories_ok_shape chat ANALYSIS_QUESTIONS 0 kfin cats hrc
      refine ⟨hmap, ?_⟩
      intro i j
      have key : ANALYSIS_QUESTIONS[i]? =
          Option.map (fun (c : CategoryResult) => (c.category, c.qa_pairs.map QAPair.question))
            cats[i]? := by
        rw [← hmap]
        exact List.getElem?_map _ cats i
      cases hc : cats[i]? <;> rw [hc] at key <;> rw [key]
      · simp
      case some c =>
        simp [List.getElem?_map]

theorem C6_witness :
    exAnalysis.categories.map (fun c => (c.category, c.qa_pairs.map QAPair.question)) =
      ANALYSIS_QUESTIONS :=
  (C6_analysis_matches_template_order fsPaper chatOk "out/p.md" exAnalysis (by rfl)).1

/-- C2 as stated is false in one corner: when the remote service reports
`done` but the downloaded archive has no `full.md` entry, the first call
reports success without ever writing the output path, so the second call on
the same source and output directory runs the remote conversion again
(`remoteCalls = 1` on the second call too) — conversion work is performed
twice, not exactly once, even though both calls return the same path. -/
theorem C2_counterexample :
    ((convert_to_markdown true envNoFullMd (.ok "# local") fs0 "papers/p.pdf" (some "out")).map
      (fun r1 =>
        (convert_to_markdown true envNoFullMd (.ok "# local") r1.fs "papers/p.pdf"
            (some "out")).map
          (fun r2 => (r1.path, r1.remoteCalls, r2.path, r2.remoteCalls, r2.localCalls)))) =
      .ok (.ok ("out/p.md", 1, "out/p.md", 1, 0)) ∧
    (1 : Nat) + 0 ≠ 0 :=
  ⟨by rfl, by decide⟩

/-- C2 amended: the skip-on-exists clause holds as stated — an existing
output path is returned with neither strategy invoked.  The two-call
idempotency holds whenever the first call actually materialized its output
file (always true when the local strategy produced the result, and true of
the remote strategy exactly when the archive contained `full.md`): the
second call then returns the same path with zero conversion work.  In the
remaining corner (remote success with no `full.md` entry) the second call
converts again, though both calls still return the same path. -/
theorem C2_skip_and_idempotence (um : Bool) (env : MineruEnv) (pym : Except String String)
    (fs : FS) (pdf : String) (od : Option String)
    (hpdf : fs.isFile pdf = true) :
    ((mkdirFor od fs).isFile (outputPathOf pdf od) = true →
      convert_to_markdown um env pym fs pdf od =
        .ok ⟨mkdirFor od fs, outputPathOf pdf od, 0, 0⟩) ∧
    (∀ r : ConvResult,
      convert_to_markdown um env pym fs pdf od = .ok r →
      r.fs.isFile r.path = true →
      convert_to_markdown um env pym r.fs pdf od = .ok ⟨mkdirFor od r.fs, r.path, 0, 0⟩) := by
  constructor
  · intro hout
    exact convert_skips_existing um env pym fs pdf od hpdf hout
  · intro r h1 hout
    obtain ⟨hpath, hpres⟩ := convert_to_markdown_ok um env pym fs pdf od r h1
    have hpdf2 : r.fs.isFile pdf = true := hpres pdf hpdf
    have hout2 : (mkdirFor od r.fs).isFile (outputPathOf pdf od) = true := by
      rw [isFile_mkdirFor, ← hpath]
      exact hout
    have hskip := convert_skips_existing um env pym r.fs pdf od hpdf2 hout2
    rw [hskip, hpath]

theorem C2_witness :
    convert_to_markdown false envNeverDone (.ok "# text") convResult1.fs "papers/p.pdf"
        (some "out") =
      .ok ⟨mkdirFor (some "out") convResult1.fs, convResult1.path, 0, 0⟩ :=
  (C2_skip_and_idempotence false envNeverDone (.ok "# text") fs0 "papers/p.pdf" (some "out")
    (by decide)).2 convResult1 (by rfl) (by rfl)

/-- C10: with no accumulated analysis result, `save_analysis_report` raises
`ValueError` and leaves the filesystem (in particular the output path)
untouched; with a result it creates the output path's parent directory and
writes the rendered report to the output path, returning the path. -/
theorem C10_save_report_guard_and_write (fs : FS) (p t : String) :
    save_analysis_report none fs p t =
      (fs, .error "没有可保存的分析结果，请先运行analyze_paper()") ∧
    ∀ r : AnalysisResults,
      (save_analysis_report (some r) fs p t).2 = .ok p ∧
      (save_analysis_report (some r) fs p t).1.hasDir (parentDir p) = true ∧
      (save_analysis_report (some r) fs p t).1.read? p = some (renderReport r t) := by
  refine ⟨rfl, fun r => ⟨rfl, ?_, FS.read?_write_self _ _ _⟩⟩
  show ((fs.mkdirAt (parentDir p)).write p (renderReport r t)).hasDir (parentDir p) = true
  rw [FS.hasDir_write]
  exact FS.hasDir_mkdirAt_self fs (parentDir p)

theorem countP_add_countP_not {α : Type} (p : α → Bool) (l : List α) :
    l.countP p + l.countP (fun a => !(p a)) = l.length := by
  induction l with
  | nil => simp
  | cons a l ih =>
    cases h : p a <;> simp [List.countP_cons, h] <;> omega

theorem length_filterMap_isSome {α β : Type} (g : α → Option β) (l : List α) :
    (l.filterMap g).length = l.countP (fun a => (g a).isSome) := by
  induction l with
  | nil => simp
  | cons a l ih =>
    cases h : g a <;> simp [List.filterMap_cons, List.countP_cons, h, ih]

theorem toOption_isSome_eq_isOkE {ε α : Type} (e : Except ε α) :
    e.toOption.isSome = isOkE e := by
  cases e <;> rfl

/-- Unrolling the batch loop: the final tallies over any prefix
accumulator. -/
theorem batch_foldl_spec (process : String → Except String String) :
    ∀ (files : List String) (acc : BatchOut),
      files.foldl (batchStep process) acc =
        ⟨acc.results ++ files.filterMap (fun f => (process f).toOption),
         acc.successful + files.countP (fun f => isOkE (process f)),
         acc.failed + files.countP (fun f => !isOkE (process f)),
         acc.errLog ++ files.filterMap (fun f =>
           match process f with | .error e => some e | .ok _ => none)⟩ := by
  intro files
  induction files with
  | nil => intro acc; simp
  | cons f fs ih =>
    intro acc
    simp only [List.foldl_cons]
    rw [ih]
    cases hp : process f <;>
      simp only [batchStep, hp, List.filterMap_cons, List.countP_cons, isOkE,
        Except.toOption] <;>
      simp [BatchOut.mk.injEq] <;>
      omega

/-- C7 as stated is false in its return shape: the batch loop does isolate
the failing second document and processes all three, but the function
returns only the successful report paths — two entries for three input
documents — with the failure recorded in the `failed` counter and the error
log, not as a third returned outcome. -/
theorem C7_counterexample :
    batch_process_papers proc3 files3 =
      ⟨["papers/a.pdf_analysis.md", "papers/c.pdf_analysis.md"], 2, 1, ["conversion failed"]⟩ ∧
    (batch_process_papers proc3 files3).results.length ≠ files3.length :=
  ⟨by rfl, by decide⟩

/-- C7 amended: every document of the batch is attempted — a failing
document never aborts the loop — and the outcome records the report path of
each success (in input order), one logged error message per failure, and
counters with `successful + failed` equal to the number of input documents;
the returned list contains the successes only. -/
theorem C7_batch_isolates_failures (process : String → Except String String)
    (pdf_files : List String) :
    (batch_process_papers process pdf_files).results =
      pdf_files.filterMap (fun f => (process f).toOption) ∧
    (batch_process_papers process pdf_files).errLog =
      pdf_files.filterMap (fun f =>
        match process f with | .error e => some e | .ok _ => none) ∧
    (batch_process_papers process pdf_files).successful +
      (batch_process_papers process pdf_files).failed = pdf_files.length ∧
    (batch_process_papers process pdf_files).results.length =
      (batch_process_papers process pdf_files).successful := by
  unfold batch_process_papers
  by_cases he : pdf_files.isEmpty
  · have hnil : pdf_files = [] := by
      cases pdf_files
      · rfl
      · simp [List.isEmpty] at he
    subst hnil
    simp
  · rw [if_neg he, batch_foldl_spec]
    refine ⟨by simp, by simp, ?_, ?_⟩
    · simpa using countP_add_countP_not (fun f => isOkE (process f)) pdf_files
    · have h := length_filterMap_isSome (fun f => (process f).toOption) pdf_files
      simpa [toOption_isSome_eq_isOkE] using h

theorem foldl_append_if_filter (fs : FS) (base : String) :
    ∀ (refs : List String) (acc : List String),
      refs.foldl (fun image_paths ref =>
        if fs.isFile (joinDir base ref) then image_paths ++ [joinDir base ref]
        else image_paths) acc =
      acc ++ (refs.filter (fun ref => fs.isFile (joinDir base ref))).map (joinDir base) := by
  intro refs
  induction refs with
  | nil => intro acc; simp
  | cons r rs ih =>
    intro acc
    simp only [List.foldl_cons]
    rw [ih]
    cases h : fs.isFile (joinDir base r) <;> simp [List.filter_cons, h]

/-- C8: the attachments returned by `extract_images_from_markdown` are
exactly the image references of the text whose resolved target exists on the
filesystem, resolved against the file's directory, kept in the order the
scan finds them (a sublist of all references in text order); missing targets
are skipped without failing.  On the concrete example referencing
`images/a.png` and `images/missing.png` where only `a.png` exists, exactly
the one attachment for `a.png` is returned. -/
theorem C8_extract_keeps_existing_in_order :
    (∀ (fs : FS) (p content : String) (paths : List String),
      fs.read? p = some content →
      extract_images_from_markdown fs p = .ok paths →
      paths = ((findImageRefs content).filter
          (fun ref => fs.isFile (joinDir (parentDir p) ref))).map (joinDir (parentDir p)) ∧
      (∀ q, q ∈ paths → fs.isFile q = true) ∧
      paths.Sublist ((findImageRefs content).map (joinDir (parentDir p)))) ∧
    extract_images_from_markdown exFs "out/doc.md" = .ok ["out/images/a.png"] := by
  constructor
  · intro fs p content paths hread hex
    unfold extract_images_from_markdown at hex
    rw [hread] at hex
    simp only [Except.ok.injEq] at hex
    rw [foldl_append_if_filter fs (parentDir p) (findImageRefs content) []] at hex
    rw [List.nil_append] at hex
    subst hex
    refine ⟨rfl, ?_, ?_⟩
    · intro q hq
      simp only [List.mem_map, List.mem_filter] at hq
      obtain ⟨ref, ⟨_, hfile⟩, heq⟩ := hq
      rw [← heq]
      exact hfile
    · exact List.Sublist.map (joinDir (parentDir p)) (List.filter_sublist _)
  · rfl

theorem C8_witness :
    (["out/images/a.png"] : List String) =
      ((findImageRefs exText).filter
        (fun ref => exFs.isFile (joinDir (parentDir "out/doc.md") ref))).map
        (joinDir (parentDir "out/doc.md")) :=
  (C8_extract_keeps_existing_in_order.1 exFs "out/doc.md" exText
    ["out/images/a.png"] rfl C8_extract_keeps_existing_in_order.2).1

end PaperAgent
